import Mathlib

/-!
Shallow embedding of the "1234" duel server (`src/index.js`).

JavaScript objects and `Map`s keyed by strings are modelled as
insertion-ordered association lists (`List (String × α)`); `Map.set` /
`Map.delete` / property lookup become `mapSet` / `mapDelete` / `mapGet`.
Nondeterministic inputs of the code (`nanoid`, `Math.random`, `Date.now`)
are passed in explicitly as parameters of the corresponding operations.
-/

namespace Backend

/-- `m.get k` / `obj[k]`: first entry with the given key, if any. -/
def mapGet : List (String × α) → String → Option α
  | [], _ => none
  | (k, v) :: rest, key => if k = key then some v else mapGet rest key

/-- `m.set(k, v)` / `obj[k] = v`: replace in place, or append a new entry. -/
def mapSet : List (String × α) → String → α → List (String × α)
  | [], key, v => [(key, v)]
  | (k, w) :: rest, key, v =>
    if k = key then (key, v) :: rest else (k, w) :: mapSet rest key v

/-- `m.delete(k)` / `delete obj[k]`: drop the first entry with the key. -/
def mapDelete : List (String × α) → String → List (String × α)
  | [], _ => []
  | (k, v) :: rest, key => if k = key then rest else (k, v) :: mapDelete rest key

/-- One player slot inside a room (`room.players[id]`). -/
structure Player where
  name : String
  secret : Option String
  ready : Bool
deriving DecidableEq, Repr

/-- One history entry pushed by the `guess` handler (`by` is a Lean keyword,
so the field is `by_`).  `feedbackDigits` is set only in `REVEAL_DIGITS`
mode, `feedbackMask` only in `REVEAL_POSITIONS`. -/
structure GuessRecord where
  by_ : String
  guess : String
  correctCount : Nat
  feedbackDigits : Option (List Char)
  feedbackMask : Option String
  ts : Nat
deriving DecidableEq, Repr

/-- The authoritative state of one match (`makeRoom`'s object shape). -/
structure Room where
  code : String
  mode : String
  players : List (String × Player)
  order : List String
  turnIndex : Nat
  winner : Option String
  history : List GuessRecord
deriving DecidableEq, Repr

/-- `/^\d{4}$/.test(s)`. -/
def isFourDigits (s : String) : Bool :=
  s.data.length == 4 && s.data.all (·.isDigit)

/-- `s[i]` on a JS string: the character at `i`, or `undefined` past the end. -/
def charAt (s : String) (i : Nat) : Option Char :=
  s.data.get? i

/-- `countCorrectPositions(guess, secret)`: the `for (i = 0..3)` loop counting
indices where `guess[i] === secret[i]`. -/
def countCorrectPositions (guess secret : String) : Nat :=
  (List.range 4).foldl
    (fun c i => if charAt guess i == charAt secret i then c + 1 else c) 0

/-- `feedbackDigits(guess, secret)`: insertion-ordered `Set` of guessed digits
that occur anywhere in the secret, spread back to an array. -/
def feedbackDigits (guess secret : String) : List Char :=
  guess.data.foldl
    (fun set d =>
      if secret.data.contains d && !(set.contains d) then set ++ [d] else set)
    []

/-- `feedbackMask(guess, secret)`: per-index hit/miss markers joined by a
space. -/
def feedbackMask (guess secret : String) : String :=
  String.intercalate " "
    (guess.data.mapIdx (fun i d => if some d == charAt secret i then "●" else "○"))

/-- `x || default` on an optional string (JS falsiness: missing or empty). -/
def orDefault (v : Option String) (d : String) : String :=
  match v with
  | none => d
  | some s => if s = "" then d else s

/-- JS `s.toUpperCase()` (ASCII-range model). -/
def jsToUpper (s : String) : String :=
  ⟨s.data.map Char.toUpper⟩

/-- JS `s.trim()`: strip whitespace from both ends. -/
def jsTrim (s : String) : String :=
  ⟨((s.data.dropWhile (·.isWhitespace)).reverse.dropWhile (·.isWhitespace)).reverse⟩

/-- `name?.trim() || default`. -/
def nameOr (n : Option String) (d : String) : String :=
  match n with
  | none => d
  | some s => if jsTrim s = "" then d else jsTrim s

/-- Per-connection `socket.data`, plus `queueJoinRegs`: the number of
`queue:join` listeners currently registered on the socket.  In the source the
`socket.on("queue:join", ...)` call sits inside the `guess` handler, so a
listener is added each time that handler runs to completion, and a fresh
connection has none. -/
structure SockData where
  roomCode : Option String := none
  queueMode : Option String := none
  playerName : Option String := none
  queueJoinRegs : Nat := 0
deriving DecidableEq, Repr

/-- The server's mutable globals: `rooms`, the per-mode `queues`, and the
set of live sockets with their `socket.data`. -/
structure ServerState where
  rooms : List (String × Room) := []
  queues : List (String × List String) :=
    [("CLASSIC", []), ("REVEAL_DIGITS", []), ("REVEAL_POSITIONS", [])]
  socks : List (String × SockData) := []
deriving DecidableEq, Repr

def initialState : ServerState := {}

/-- `enqueue(mode, socketId)`: create the mode's list if missing, push if not
already present. -/
def enqueue (qs : List (String × List String)) (mode sid : String) :
    List (String × List String) :=
  match mapGet qs mode with
  | some q => if q.contains sid then qs else mapSet qs mode (q ++ [sid])
  | none => mapSet qs mode [sid]

/-- `dequeue(mode, socketId)`: `queues[mode] = q.filter(id => id !== socketId)`. -/
def dequeue (qs : List (String × List String)) (mode sid : String) :
    List (String × List String) :=
  mapSet qs mode (((mapGet qs mode).getD []).filter (fun id => id != sid))

/-- `popOpponent`'s scan-and-splice on one queue: remove and return the first
entry different from `exceptId`. -/
def popOpponentList : List String → String → Option String × List String
  | [], _ => (none, [])
  | x :: xs, exceptId =>
    if x ≠ exceptId then (some x, xs)
    else
      let r := popOpponentList xs exceptId
      (r.1, x :: r.2)

/-- `isInAnyQueue(id)`: some mode's queue contains the id. -/
def isInAnyQueue (qs : List (String × List String)) (sid : String) : Bool :=
  qs.any (fun kq => kq.2.contains sid)

/-- `makeRoom(mode)`: draw one code (`nanoid(6)`, passed in as `genCode`),
uppercase it, build the empty room and `rooms.set(code, room)` — no retry on
collision; `set` overwrites any live session under the same code. -/
def makeRoom (genCode : String) (mode : String) (rooms : List (String × Room)) :
    Room × List (String × Room) :=
  let code := jsToUpper genCode
  let room : Room :=
    { code := code, mode := mode, players := [], order := [],
      turnIndex := 0, winner := none, history := [] }
  (room, mapSet rooms code room)

/-- The `set-secret` handler's mutation of a found room: validate the digits,
commit the secret, and when the ready count is 2 (whether or not it just
became 2) re-roll `turnIndex` (`Math.round(Math.random())`, passed in as
`rand`) and clear `winner`. -/
def setSecretRoom (room : Room) (sid secret : String) (rand : Nat) : Room :=
  match mapGet room.players sid with
  | none => room
  | some p =>
    if isFourDigits secret then
      let players := mapSet room.players sid
        { p with secret := some secret, ready := true }
      let readyCount := (players.map (·.2)).countP (·.ready)
      if readyCount = 2 ∧ room.order.length = 2 then
        { room with players := players, turnIndex := rand, winner := none }
      else
        { room with players := players }
    else room

/-- The `guess` handler's mutation of a found room; `none` means an early
return (winner already set, out of turn, malformed guess, or opponent not
ready), in which case the room is untouched. -/
def guessRoom (room : Room) (sid guessStr : String) (ts : Nat) : Option Room :=
  if room.winner.isSome then none
  else
    match room.order.get? (room.turnIndex % room.order.length) with
    | none => none
    | some turnId =>
      if sid ≠ turnId then none
      else if !(isFourDigits guessStr) then none
      else
        match room.order.find? (fun id => id != sid) with
        | none => none
        | some opp =>
          match (mapGet room.players opp).bind (·.secret) with
          | none => none
          | some sec =>
            let correctCount := countCorrectPositions guessStr sec
            let item : GuessRecord :=
              { by_ := sid, guess := guessStr, correctCount := correctCount,
                feedbackDigits :=
                  if room.mode = "REVEAL_DIGITS"
                  then some (feedbackDigits guessStr sec) else none,
                feedbackMask :=
                  if room.mode = "REVEAL_POSITIONS"
                  then some (feedbackMask guessStr sec) else none,
                ts := ts }
            let room := { room with history := room.history ++ [item] }
            some (if correctCount = 4
              then { room with winner := some sid }
              else { room with
                      turnIndex := (room.turnIndex + 1) % room.order.length })

/-- The `reset-room` handler's 2-player branch: clear secrets, readiness,
history and winner, and flip the first turn when two seats exist. -/
def resetRoomRoom (room : Room) : Room :=
  { room with
    players := room.players.map
      (fun kp => (kp.1, { kp.2 with secret := none, ready := false })),
    history := [],
    winner := none,
    turnIndex := if room.order.length = 2 then (room.turnIndex + 1) % 2 else 0 }

/-- `destroyRoom(code, reason)`: clear the members' `roomCode` markers and
remove the room from the registry. -/
def destroyRoom (st : ServerState) (code : String) : ServerState :=
  match mapGet st.rooms code with
  | none => st
  | some room =>
    let socks := st.socks.map
      (fun ks =>
        if (room.players.map (·.1)).contains ks.1
        then (ks.1, { ks.2 with roomCode := none })
        else ks)
    { st with socks := socks, rooms := mapDelete st.rooms code }

/-- One inbound socket event.  Nondeterministic inputs of the handlers
(`nanoid` draw, `Math.random` turn roll, `Date.now`) ride along as payload
fields. -/
inductive Event where
  | connect (sid : String)
  | createRoom (sid : String) (nameArg modeArg : Option String) (genCode : String)
  | joinRoom (sid : String) (codeArg nameArg : Option String)
  | setSecret (sid code secret : String) (rand : Nat)
  | guess (sid code guessStr : String) (ts : Nat)
  | queueJoin (sid : String) (modeArg nameArg : Option String) (genCode : String)
  | queueLeave (sid : String)
  | resetRoom (sid code : String)
  | leaveRoom (sid code : String)
  | disconnect (sid : String)
deriving DecidableEq, Repr

/-- The queue-flow prologue shared by `create-room` and `join-room`: if the
socket is queued, dequeue it and clear `queueMode`. -/
def dequeueIfQueued (st : ServerState) (sid : String) (sock : SockData) :
    ServerState :=
  match sock.queueMode with
  | some m =>
    { st with queues := dequeue st.queues m sid,
              socks := mapSet st.socks sid { sock with queueMode := none } }
  | none => st

/-- The body of the `queue:join` listener (source lines 191–245), run once
per registered listener. -/
def queueJoinBody (st : ServerState) (sid : String)
    (modeArg nameArg : Option String) (genCode : String) : ServerState :=
  match mapGet st.socks sid with
  | none => st
  | some sock =>
    let mode := jsToUpper (orDefault modeArg "CLASSIC")
    if (mapGet st.queues mode).isNone then st
    else if sock.roomCode.isSome then st
    else if isInAnyQueue st.queues sid then st
    else
      let pname := nameOr nameArg "Player"
      let sock := { sock with playerName := some pname, queueMode := some mode }
      let socks := mapSet st.socks sid sock
      let queues := enqueue st.queues mode sid
      match mapGet queues mode with
      | none => { st with socks := socks, queues := queues }
      | some q =>
        let popped := popOpponentList q sid
        let queues := mapSet queues mode popped.2
        match popped.1 with
        | none => { st with socks := socks, queues := queues }
        | some opp =>
          let queues := dequeue queues mode sid
          match mapGet socks opp with
          | none =>
            { st with socks := socks, queues := enqueue queues mode sid }
          | some oppSock =>
            let made := makeRoom genCode mode st.rooms
            let meName := orDefault (some pname) "Player A"
            let oppName := orDefault oppSock.playerName "Player B"
            let room :=
              { made.1 with
                players :=
                  [(sid, { name := meName, secret := none, ready := false }),
                   (opp, { name := oppName, secret := none, ready := false })],
                order := [sid, opp] }
            let rooms := mapSet made.2 room.code room
            let socks := mapSet socks sid { sock with roomCode := some room.code }
            let socks := mapSet socks opp { oppSock with roomCode := some room.code }
            { st with rooms := rooms, queues := queues, socks := socks }

/-- The `disconnecting` handler's queue part: if the socket was queued,
dequeue it. -/
def disconnecting1 (st : ServerState) (sid : String) (sock : SockData) :
    ServerState :=
  match sock.queueMode with
  | some m => { st with queues := dequeue st.queues m sid }
  | none => st

/-- The `disconnecting` handler's room part: if the socket tracked a live
room, destroy it. -/
def disconnecting2 (st : ServerState) (sid : String) (sock : SockData) :
    ServerState :=
  match sock.roomCode with
  | some c => if (mapGet st.rooms c).isSome then destroyRoom st c else st
  | none => st

/-- Process one event to completion (the server is single-threaded). -/
def step (st : ServerState) : Event → ServerState
  | .connect sid =>
    if (mapGet st.socks sid).isSome then st
    else { st with socks := st.socks ++ [(sid, {})] }
  | .createRoom sid nameArg modeArg genCode =>
    match mapGet st.socks sid with
    | none => st
    | some sock =>
      let st := dequeueIfQueued st sid sock
      let mode := jsToUpper (orDefault modeArg "CLASSIC")
      let made := makeRoom genCode mode st.rooms
      let room :=
        { made.1 with
          players := [(sid, { name := nameOr nameArg "Player A",
                              secret := none, ready := false })],
          order := [sid] }
      let rooms := mapSet made.2 room.code room
      let socks :=
        match mapGet st.socks sid with
        | some s => mapSet st.socks sid { s with roomCode := some room.code }
        | none => st.socks
      { st with rooms := rooms, socks := socks }
  | .joinRoom sid codeArg nameArg =>
    match mapGet st.socks sid with
    | none => st
    | some sock =>
      let st := dequeueIfQueued st sid sock
      let key := jsToUpper (codeArg.getD "")
      match mapGet st.rooms key with
      | none => st
      | some room =>
        if room.players.length ≥ 2 then st
        else
          let room :=
            { room with
              players := mapSet room.players sid
                { name := nameOr nameArg "Player B", secret := none,
                  ready := false },
              order := room.order ++ [sid] }
          let socks :=
            match mapGet st.socks sid with
            | some s => mapSet st.socks sid { s with roomCode := some room.code }
            | none => st.socks
          { st with rooms := mapSet st.rooms key room, socks := socks }
  | .setSecret sid code secret rand =>
    match mapGet st.rooms code with
    | none => st
    | some room =>
      { st with rooms := mapSet st.rooms code (setSecretRoom room sid secret rand) }
  | .guess sid code guessStr ts =>
    match mapGet st.rooms code with
    | none => st
    | some room =>
      match guessRoom room sid guessStr ts with
      | none => st
      | some room' =>
        let socks :=
          match mapGet st.socks sid with
          | some s =>
            mapSet st.socks sid { s with queueJoinRegs := s.queueJoinRegs + 1 }
          | none => st.socks
        { st with rooms := mapSet st.rooms code room', socks := socks }
  | .queueJoin sid modeArg nameArg genCode =>
    match mapGet st.socks sid with
    | none => st
    | some sock =>
      (List.range sock.queueJoinRegs).foldl
        (fun s _ => queueJoinBody s sid modeArg nameArg genCode) st
  | .queueLeave sid =>
    match mapGet st.socks sid with
    | none => st
    | some sock =>
      let st :=
        match sock.queueMode with
        | some m => { st with queues := dequeue st.queues m sid }
        | none => st
      { st with socks := mapSet st.socks sid { sock with queueMode := none } }
  | .resetRoom _sid code =>
    match mapGet st.rooms code with
    | none => st
    | some room =>
      if room.players.length < 2 then destroyRoom st code
      else { st with rooms := mapSet st.rooms code (resetRoomRoom room) }
  | .leaveRoom sid code =>
    match mapGet st.rooms code with
    | none => st
    | some room =>
      if (mapGet room.players sid).isNone then st
      else destroyRoom st code
  | .disconnect sid =>
    match mapGet st.socks sid with
    | none => st
    | some sock =>
      let st := disconnecting1 st sid sock
      let st := disconnecting2 st sid sock
      let st :=
        { st with queues :=
            st.queues.map (fun (kq : String × List String) =>
              (kq.1, kq.2.filter (fun id => id != sid))) }
      { st with socks := mapDelete st.socks sid }

/-- A run of the server from boot: fold the events in arrival order. -/
def runEvents (es : List Event) : ServerState :=
  es.foldl step initialState

/-! ### Association-list lemmas -/

theorem mapGet_mem {m : List (String × α)} {k : String} {v : α}
    (h : mapGet m k = some v) : (k, v) ∈ m := by
  induction m with
  | nil => simp [mapGet] at h
  | cons p rest ih =>
    obtain ⟨k', v'⟩ := p
    by_cases hk : k' = k
    · subst hk
      simp [mapGet] at h
      simp [h]
    · simp [mapGet, hk] at h
      exact List.mem_cons_of_mem _ (ih h)

theorem mem_mapSet {m : List (String × α)} {k : String} {v : α} {p : String × α}
    (h : p ∈ mapSet m k v) : p ∈ m ∨ p = (k, v) := by
  induction m with
  | nil => simp [mapSet] at h; simp [h]
  | cons q rest ih =>
    obtain ⟨k', v'⟩ := q
    by_cases hk : k' = k
    · subst hk
      simp [mapSet] at h
      rcases h with h | h
      · right; simp [h]
      · left; exact List.mem_cons_of_mem _ h
    · simp [mapSet, hk] at h
      rcases h with h | h
      · left; simp [h]
      · rcases ih h with h' | h'
        · left; exact List.mem_cons_of_mem _ h'
        · right; exact h'

theorem mem_mapDelete {m : List (String × α)} {k : String} {p : String × α}
    (h : p ∈ mapDelete m k) : p ∈ m := by
  induction m with
  | nil => simp [mapDelete] at h
  | cons q rest ih =>
    obtain ⟨k', v'⟩ := q
    by_cases hk : k' = k
    · subst hk
      simp [mapDelete] at h
      exact List.mem_cons_of_mem _ h
    · simp [mapDelete, hk] at h
      rcases h with h | h
      · simp [h]
      · exact List.mem_cons_of_mem _ (ih h)

theorem mapGet_mapSet_self {m : List (String × α)} {k : String} {v : α} :
    mapGet (mapSet m k v) k = some v := by
  induction m with
  | nil => simp [mapSet, mapGet]
  | cons q rest ih =>
    obtain ⟨k', v'⟩ := q
    by_cases hk : k' = k
    · subst hk; simp [mapSet, mapGet]
    · simp [mapSet, mapGet, hk, ih]

theorem mapGet_eq_none_of_not_mem_keys {m : List (String × α)} {k : String}
    (h : k ∉ m.map (·.1)) : mapGet m k = none := by
  induction m with
  | nil => rfl
  | cons q rest ih =>
    obtain ⟨k', v'⟩ := q
    have h1 : k' ≠ k := fun he => h (by simp [he])
    have h2 : k ∉ rest.map (·.1) := fun hm => h (by simp [hm])
    simp [mapGet, h1, ih h2]

theorem mapGet_mapDelete_self {m : List (String × α)} {k : String}
    (h : (m.map (·.1)).Nodup) : mapGet (mapDelete m k) k = none := by
  induction m with
  | nil => rfl
  | cons q rest ih =>
    obtain ⟨k', v'⟩ := q
    rw [List.map_cons] at h
    have h' := List.nodup_cons.mp h
    by_cases hk : k' = k
    · subst hk
      simpa [mapDelete] using mapGet_eq_none_of_not_mem_keys h'.1
    · simp [mapDelete, hk, mapGet, ih h'.2]

/-- Keys after `mapSet`: unchanged when the key was present, else the key is
appended; either way `Nodup` of the keys is preserved. -/
theorem nodup_keys_mapSet {m : List (String × α)} {k : String} {v : α}
    (h : (m.map (·.1)).Nodup) : ((mapSet m k v).map (·.1)).Nodup := by
  induction m with
  | nil => simp [mapSet]
  | cons q rest ih =>
    obtain ⟨k', v'⟩ := q
    rw [List.map_cons] at h
    have h' := List.nodup_cons.mp h
    by_cases hk : k' = k
    · subst hk
      rw [mapSet, if_pos rfl, List.map_cons]
      exact List.nodup_cons.mpr h'
    · rw [mapSet, if_neg hk, List.map_cons]
      refine List.nodup_cons.mpr ⟨fun hm => ?_, ih h'.2⟩
      rcases List.mem_map.mp hm with ⟨p, hp, hp1⟩
      rcases mem_mapSet hp with hp' | hp'
      · exact h'.1 (hp1 ▸ List.mem_map_of_mem (·.1) hp')
      · rw [hp'] at hp1
        exact hk hp1.symm

/-! ### Scoring-engine lemmas -/

theorem length_four_exists {l : List α} (h : l.length = 4) :
    ∃ a b c d, l = [a, b, c, d] := by
  rcases l with _ | ⟨a, _ | ⟨b, _ | ⟨c, _ | ⟨d, _ | ⟨e, t⟩⟩⟩⟩⟩
  · simp at h
  · simp at h
  · simp at h
  · simp at h
  · exact ⟨a, b, c, d, rfl⟩
  · simp at h

/-- C5: on fixed-length-4 digit strings, `countCorrectPositions` returns 4
exactly when guess and secret coincide. -/
theorem c5_correct_four_iff_eq (g s : String)
    (hg : g.data.length = 4) (hs : s.data.length = 4)
    (hgd : ∀ c ∈ g.data, c.isDigit) (hsd : ∀ c ∈ s.data, c.isDigit) :
    countCorrectPositions g s = 4 ↔ g = s := by
  obtain ⟨a₁, a₂, a₃, a₄, hG⟩ := length_four_exists hg
  obtain ⟨b₁, b₂, b₃, b₄, hS⟩ := length_four_exists hs
  rw [String.ext_iff, hG, hS]
  have hr : List.range 4 = [0, 1, 2, 3] := rfl
  simp only [countCorrectPositions, charAt, hG, hS, hr, List.foldl, List.get?,
    beq_iff_eq, Option.some.injEq]
  split_ifs <;> simp_all

/-- C5 witness: the equivalence instantiated at guess = secret = "1234". -/
theorem c5_correct_four_iff_eq_witness :
    ("1234" : String).data.length = 4 ∧
    (countCorrectPositions "1234" "1234" = 4 ↔ ("1234" : String) = "1234") :=
  ⟨by decide, c5_correct_four_iff_eq "1234" "1234" (by decide) (by decide)
    (by decide) (by decide)⟩

theorem feedbackDigits_fold_invariant (s : List Char) :
    ∀ (g acc : List Char), acc.Nodup → (∀ d ∈ acc, d ∈ s) →
      (g.foldl
        (fun set d => if s.contains d && !(set.contains d) then set ++ [d] else set)
        acc).Nodup
      ∧ ∀ d ∈ g.foldl
          (fun set d => if s.contains d && !(set.contains d) then set ++ [d] else set)
          acc, d ∈ s := by
  intro g
  induction g with
  | nil => intro acc h1 h2; exact ⟨h1, h2⟩
  | cons d g ih =>
    intro acc h1 h2
    simp only [List.foldl_cons]
    by_cases hc : (s.contains d && !(acc.contains d)) = true
    · rw [if_pos hc]
      simp only [Bool.and_eq_true, Bool.not_eq_true'] at hc
      have hds : d ∈ s := by simpa using hc.1
      have hda : d ∉ acc := by simpa using hc.2
      refine ih (acc ++ [d]) ?_ ?_
      · refine List.nodup_append.mpr ⟨h1, List.nodup_singleton d, fun x hx hxd => ?_⟩
        rw [List.mem_singleton] at hxd
        exact hda (hxd ▸ hx)
      · intro x hx
        rcases List.mem_append.mp hx with hx | hx
        · exact h2 x hx
        · simpa using (List.mem_singleton.mp hx) ▸ hds
    · rw [if_neg hc]
      exact ih acc h1 h2

/-- C8: `feedbackDigits` never repeats a digit and only reports digits that
occur in the secret; on secret "1123" and guess "1111" it is exactly
`['1']` while `countCorrectPositions` scores 2. -/
theorem c8_feedback_digits_set (g s : String)
    (hg : isFourDigits g = true) (hs : isFourDigits s = true) :
    (feedbackDigits g s).Nodup ∧ (∀ d ∈ feedbackDigits g s, d ∈ s.data)
    ∧ feedbackDigits "1111" "1123" = ['1']
    ∧ countCorrectPositions "1111" "1123" = 2 := by
  have h := feedbackDigits_fold_invariant s.data g.data [] (List.nodup_nil)
    (by intro d hd; simp at hd)
  exact ⟨h.1, h.2, by decide, by decide⟩

/-- C8 witness at guess "1111", secret "1123". -/
theorem c8_feedback_digits_set_witness :
    isFourDigits "1111" = true ∧
    ((feedbackDigits "1111" "1123").Nodup ∧
      (∀ d ∈ feedbackDigits "1111" "1123", d ∈ ("1123" : String).data)
      ∧ feedbackDigits "1111" "1123" = ['1']
      ∧ countCorrectPositions "1111" "1123" = 2) :=
  ⟨by decide, c8_feedback_digits_set "1111" "1123" (by decide) (by decide)⟩

/-! ### C2: set-secret during an Active game -/

/-- A concrete Active-state room: both secrets committed, winner unset,
turn assigned to seat 0. -/
def c2Room : Room :=
  { code := "ROOM01", mode := "CLASSIC",
    players := [("A", { name := "Alice", secret := some "1234", ready := true }),
                ("B", { name := "Bob", secret := some "5678", ready := true })],
    order := ["A", "B"], turnIndex := 0, winner := none, history := [] }

/-- C2 counterexample: in an Active room a re-commit by player "A" with a
fresh random draw of 1 moves `turnIndex` from 0 to 1 — the `readyCount === 2`
branch re-runs on every commit while both players are ready, not only at the
transition to 2. -/
theorem c2_recommit_moves_turn_counterexample :
    (setSecretRoom c2Room "A" "4321" 1).turnIndex ≠ c2Room.turnIndex := by decide

/-- C2 amended: whenever a commit leaves the ready count at 2 in a two-seat
room — including a re-commit during an Active game — `turnIndex` is
re-assigned to the fresh random draw and `winner` is cleared. -/
theorem c2_recommit_rerolls_turn (room : Room) (sid secret : String)
    (rand : Nat) (p : Player)
    (hp : mapGet room.players sid = some p)
    (hv : isFourDigits secret = true)
    (hready : ((mapSet room.players sid
        { p with secret := some secret, ready := true }).map (·.2)).countP
          (·.ready) = 2)
    (hord : room.order.length = 2) :
    (setSecretRoom room sid secret rand).turnIndex = rand ∧
    (setSecretRoom room sid secret rand).winner = none := by
  simp [setSecretRoom, hp, hv, hready, hord]

/-- C2 amended witness: the re-commit of `c2Room` with draw 1. -/
theorem c2_recommit_rerolls_turn_witness :
    mapGet c2Room.players "A" = some ⟨"Alice", some "1234", true⟩ ∧
    ((setSecretRoom c2Room "A" "4321" 1).turnIndex = 1 ∧
     (setSecretRoom c2Room "A" "4321" 1).winner = none) :=
  ⟨by decide, c2_recommit_rerolls_turn c2Room "A" "4321" 1
    ⟨"Alice", some "1234", true⟩ (by decide) (by decide) (by decide) (by decide)⟩

/-! ### C4: code generation on collision -/

/-- A live session under code "ABCDEF", with a player in it. -/
def c4OldRoom : Room :=
  { code := "ABCDEF", mode := "CLASSIC",
    players := [("P1", { name := "Old", secret := none, ready := false })],
    order := ["P1"], turnIndex := 0, winner := none, history := [] }

/-- C4 counterexample: with "ABCDEF" live, a colliding draw "abcdef" is used
as-is — there is no retry — and the previously-live session is silently
replaced in the registry rather than kept alongside a freshly-coded one. -/
theorem c4_no_retry_counterexample :
    (makeRoom "abcdef" "CLASSIC" [("ABCDEF", c4OldRoom)]).1.code = "ABCDEF"
    ∧ (∀ p ∈ (makeRoom "abcdef" "CLASSIC" [("ABCDEF", c4OldRoom)]).2,
        p.2 ≠ c4OldRoom)
    ∧ mapGet (makeRoom "abcdef" "CLASSIC" [("ABCDEF", c4OldRoom)]).2 "ABCDEF"
      = some (makeRoom "abcdef" "CLASSIC" [("ABCDEF", c4OldRoom)]).1 := by
  refine ⟨by decide, by decide, by decide⟩

/-- C4 amended: `makeRoom` registers its single uppercased draw
unconditionally; code-uniqueness among live sessions is nevertheless
preserved, because the registry `set` overwrites (destroying the colliding
session) instead of keeping both. -/
theorem c4_single_draw_overwrites (genCode mode : String)
    (rooms : List (String × Room)) (h : (rooms.map (·.1)).Nodup) :
    (makeRoom genCode mode rooms).1.code = jsToUpper genCode ∧
    ((makeRoom genCode mode rooms).2.map (·.1)).Nodup :=
  ⟨rfl, nodup_keys_mapSet h⟩

/-- C4 amended witness: creating over the singleton registry. -/
theorem c4_single_draw_overwrites_witness :
    (([("ABCDEF", c4OldRoom)] : List (String × Room)).map (·.1)).Nodup ∧
    ((makeRoom "abcdef" "CLASSIC" [("ABCDEF", c4OldRoom)]).1.code
        = jsToUpper "abcdef" ∧
      ((makeRoom "abcdef" "CLASSIC" [("ABCDEF", c4OldRoom)]).2.map (·.1)).Nodup) :=
  ⟨by decide, c4_single_draw_overwrites "abcdef" "CLASSIC"
    [("ABCDEF", c4OldRoom)] (by decide)⟩

/-! ### C6 / C7: turn protocol -/

/-- C6: an in-turn, well-formed guess in a winner-free two-seat room whose
opponent has a committed secret always succeeds; a non-winning guess advances
`turnIndex` to `(turnIndex + 1) % order.length` and leaves the winner unset,
while a 4/4 guess leaves `turnIndex` unchanged and sets the guesser as
winner. -/
theorem c6_turn_alternation (room : Room) (sid guessStr : String) (ts : Nat)
    (opp : String) (p : Player) (sec : String)
    (hw : room.winner = none)
    (hturn : room.order.get? (room.turnIndex % room.order.length) = some sid)
    (hv : isFourDigits guessStr = true)
    (hopp : room.order.find? (fun id => id != sid) = some opp)
    (hp : mapGet room.players opp = some p)
    (hsec : p.secret = some sec)
    (h2 : room.order.length = 2) :
    ∃ room', guessRoom room sid guessStr ts = some room'
      ∧ (countCorrectPositions guessStr sec ≠ 4 →
          room'.turnIndex = (room.turnIndex + 1) % room.order.length
          ∧ room'.winner = none)
      ∧ (countCorrectPositions guessStr sec = 4 →
          room'.turnIndex = room.turnIndex ∧ room'.winner = some sid) := by
  simp only [guessRoom, hw, Option.isSome_none, Bool.false_eq_true, if_false,
    hturn, ne_eq, not_true_eq_false, if_neg, hv, Bool.not_true, hopp, hp,
    Option.some_bind, hsec]
  refine ⟨_, rfl, fun hne => ?_, fun heq => ?_⟩
  · rw [if_neg hne]
    exact ⟨rfl, rfl⟩
  · rw [if_pos heq]
    exact ⟨rfl, rfl⟩

/-- C6 witness: the in-turn non-winning guess "0000" in `c2Room`-shaped data. -/
def c6Room : Room :=
  { code := "ROOM02", mode := "CLASSIC",
    players := [("A", { name := "Alice", secret := some "1234", ready := true }),
                ("B", { name := "Bob", secret := some "5678", ready := true })],
    order := ["A", "B"], turnIndex := 0, winner := none, history := [] }

theorem c6_turn_alternation_witness :
    c6Room.winner = none ∧
    (∃ room', guessRoom c6Room "A" "0000" 7 = some room'
      ∧ (countCorrectPositions "0000" "5678" ≠ 4 →
          room'.turnIndex = (c6Room.turnIndex + 1) % c6Room.order.length
          ∧ room'.winner = none)
      ∧ (countCorrectPositions "0000" "5678" = 4 →
          room'.turnIndex = c6Room.turnIndex ∧ room'.winner = some "A")) :=
  ⟨rfl, c6_turn_alternation c6Room "A" "0000" 7 "B"
    ⟨"Bob", some "5678", true⟩ "5678" rfl (by decide) (by decide) (by decide)
    (by decide) (by decide) (by decide)⟩

/-- C7: a `guess` event whose sender does not sit at
`order[turnIndex % order.length]` leaves the target session untouched:
its history, turn index and winner are unchanged. -/
theorem c7_out_of_turn_noop (st : ServerState) (sid code guessStr : String)
    (ts : Nat) (room : Room)
    (hr : mapGet st.rooms code = some room)
    (hturn : room.order.get? (room.turnIndex % room.order.length) ≠ some sid) :
    ∃ room', mapGet (step st (.guess sid code guessStr ts)).rooms code = some room'
      ∧ room'.history = room.history ∧ room'.turnIndex = room.turnIndex
      ∧ room'.winner = room.winner := by
  have hnone : guessRoom room sid guessStr ts = none := by
    unfold guessRoom
    by_cases hw : room.winner.isSome
    · rw [if_pos hw]
    · rw [if_neg hw]
      cases hg : room.order.get? (room.turnIndex % room.order.length) with
      | none => rfl
      | some turnId =>
        have hne : sid ≠ turnId := fun he => hturn (he ▸ hg)
        simp [hne]
  refine ⟨room, ?_, rfl, rfl, rfl⟩
  simp only [step, hr, hnone]

/-- C7 witness: "B" guessing while seat 0 ("A") holds the turn. -/
def c7State : ServerState :=
  { rooms := [("ROOM03", c2Room)], socks := [("A", {}), ("B", {})] }

theorem c7_out_of_turn_noop_witness :
    mapGet c7State.rooms "ROOM03" = some c2Room ∧
    (∃ room', mapGet (step c7State (.guess "B" "ROOM03" "1234" 9)).rooms "ROOM03"
        = some room'
      ∧ room'.history = c2Room.history ∧ room'.turnIndex = c2Room.turnIndex
      ∧ room'.winner = c2Room.winner) :=
  ⟨by decide, c7_out_of_turn_noop c7State "B" "ROOM03" "1234" 9 c2Room
    (by decide) (by decide)⟩

/-! ### C9: reset with fewer than two players -/

/-- C9: a `reset-room` on a session holding fewer than 2 players destroys it —
the registry lookup by its code fails afterwards (rather than the state being
cleared in place). -/
theorem c9_reset_solo_destroys (st : ServerState) (sid code : String)
    (room : Room)
    (hnod : (st.rooms.map (·.1)).Nodup)
    (hr : mapGet st.rooms code = some room)
    (hlt : room.players.length < 2) :
    mapGet (step st (.resetRoom sid code)).rooms code = none := by
  simp only [step, hr]
  rw [if_pos hlt]
  unfold destroyRoom
  rw [hr]
  simpa using mapGet_mapDelete_self hnod

/-- C9 witness: a one-player room is gone after reset. -/
def c9State : ServerState :=
  { rooms := [("ROOM04", c4OldRoom)], socks := [("P1", {})] }

theorem c9_reset_solo_destroys_witness :
    mapGet c9State.rooms "ROOM04" = some c4OldRoom ∧
    mapGet (step c9State (.resetRoom "P1" "ROOM04")).rooms "ROOM04" = none :=
  ⟨by decide, c9_reset_solo_destroys c9State "P1" "ROOM04" c4OldRoom
    (by decide) (by decide) (by decide)⟩

/-! ### C10: outbound payloads carry no secrets -/

/-- One entry of `publicRoom(room).players`. -/
structure PublicPlayer where
  id : String
  name : String
  ready : Bool
deriving DecidableEq, Repr

/-- The `room-update` payload built by `publicRoom`. -/
structure PublicRoomSummary where
  code : String
  mode : String
  players : List PublicPlayer
  currentTurn : Option String
  winner : Option String
deriving DecidableEq, Repr

/-- `publicRoom(room)`: the outbound room summary
(`order[turnIndex] || null` becomes an optional lookup). -/
def publicRoom (room : Room) : PublicRoomSummary :=
  { code := room.code, mode := room.mode,
    players := room.players.map (fun kp => ⟨kp.1, kp.2.name, kp.2.ready⟩),
    currentTurn := room.order.get? room.turnIndex,
    winner := room.winner }

/-- The `history-update` payload element built by `slimHistory`. -/
structure SlimRecord where
  by_ : String
  guess : String
  correctCount : Nat
  feedbackDigits : Option (List Char)
  feedbackMask : Option String
  ts : Nat
deriving DecidableEq, Repr

/-- `slimHistory(h)`. -/
def slimHistory (h : GuessRecord) : SlimRecord :=
  ⟨h.by_, h.guess, h.correctCount, h.feedbackDigits, h.feedbackMask, h.ts⟩

/-- Two rooms that differ at most in the players' stored `secret` values:
every other field agrees, and the player lists agree pointwise on key, name
and readiness. -/
def SecretAgnostic (r₁ r₂ : Room) : Prop :=
  r₁.code = r₂.code ∧ r₁.mode = r₂.mode ∧ r₁.order = r₂.order ∧
  r₁.turnIndex = r₂.turnIndex ∧ r₁.winner = r₂.winner ∧
  r₁.history = r₂.history ∧
  ∀ i, (r₁.players.get? i).map (fun kp => (kp.1, kp.2.name, kp.2.ready))
     = (r₂.players.get? i).map (fun kp => (kp.1, kp.2.name, kp.2.ready))

/-- C10: the `room-update` and `history-update` payloads are identical for
any two session states that differ only in the players' secrets — the
emitted summaries never depend on a secret. -/
theorem c10_no_secret_leak (r₁ r₂ : Room) (h : SecretAgnostic r₁ r₂) :
    publicRoom r₁ = publicRoom r₂ ∧
    r₁.history.map slimHistory = r₂.history.map slimHistory := by
  obtain ⟨hc, hm, ho, ht, hw, hh, hpt⟩ := h
  have hplayers :
      r₁.players.map (fun kp => (⟨kp.1, kp.2.name, kp.2.ready⟩ : PublicPlayer))
      = r₂.players.map (fun kp => (⟨kp.1, kp.2.name, kp.2.ready⟩ : PublicPlayer)) := by
    apply List.ext_get?
    intro n
    rw [show ∀ (l : List (String × Player)) (i : Nat),
        (l.map (fun kp => (⟨kp.1, kp.2.name, kp.2.ready⟩ : PublicPlayer))).get? i
        = (l.get? i).map (fun kp => (⟨kp.1, kp.2.name, kp.2.ready⟩ : PublicPlayer))
      from fun l i => List.get?_map .. , show ∀ (l : List (String × Player)) (i : Nat),
        (l.map (fun kp => (⟨kp.1, kp.2.name, kp.2.ready⟩ : PublicPlayer))).get? i
        = (l.get? i).map (fun kp => (⟨kp.1, kp.2.name, kp.2.ready⟩ : PublicPlayer))
      from fun l i => List.get?_map .. ]
    have h1 := hpt n
    cases e₁ : r₁.players.get? n with
    | none =>
      cases e₂ : r₂.players.get? n with
      | none => rfl
      | some q => rw [e₁, e₂] at h1; simp at h1
    | some p =>
      cases e₂ : r₂.players.get? n with
      | none => rw [e₁, e₂] at h1; simp at h1
      | some q =>
        rw [e₁, e₂] at h1
        simp only [Option.map_some', Option.some.injEq, Prod.mk.injEq] at h1
        simp only [Option.map_some', Option.some.injEq, PublicPlayer.mk.injEq]
        exact ⟨h1.1, h1.2.1, h1.2.2⟩
  exact ⟨by simp [publicRoom, hc, hm, ho, ht, hw, hplayers], by rw [hh]⟩

/-- C10 witness: `c2Room` against the same room with both secrets replaced. -/
def c10OtherRoom : Room :=
  { code := "ROOM01", mode := "CLASSIC",
    players := [("A", { name := "Alice", secret := some "9999", ready := true }),
                ("B", { name := "Bob", secret := none, ready := true })],
    order := ["A", "B"], turnIndex := 0, winner := none, history := [] }

theorem c10_no_secret_leak_witness :
    SecretAgnostic c2Room c10OtherRoom ∧
    (publicRoom c2Room = publicRoom c10OtherRoom ∧
      c2Room.history.map slimHistory = c10OtherRoom.history.map slimHistory) :=
  ⟨⟨rfl, rfl, rfl, rfl, rfl, rfl, fun i => by
      match i with
      | 0 => rfl
      | 1 => rfl
      | (n + 2) => rfl⟩,
    c10_no_secret_leak c2Room c10OtherRoom
      ⟨rfl, rfl, rfl, rfl, rfl, rfl, fun i => by
        match i with
        | 0 => rfl
        | 1 => rfl
        | (n + 2) => rfl⟩⟩

/-! ### C1: matchmaking via queue:join -/

/-- C1: the `queue:join` registration sits inside the `guess` handler, so a
fresh connection has no listener for it.  Two fresh connections both emitting
`queue:join` for the same mode (neither in a room nor a queue) therefore
change nothing: no Session is created (and they are not even enqueued),
contradicting the specified pairing behaviour. -/
theorem c1_queue_join_dropped :
    runEvents [.connect "A", .connect "B",
      .queueJoin "A" (some "CLASSIC") (some "Alice") "QCODE1",
      .queueJoin "B" (some "CLASSIC") (some "Bob") "QCODE2"]
    = runEvents [.connect "A", .connect "B"]
    ∧ (runEvents [.connect "A", .connect "B",
        .queueJoin "A" (some "CLASSIC") (some "Alice") "QCODE1",
        .queueJoin "B" (some "CLASSIC") (some "Bob") "QCODE2"]).rooms = [] :=
  ⟨by decide, by decide⟩

/-! ### C3: winner vs. recorded 4/4 guesses -/

/-- A set winner is justified by some 4/4 record in the current history. -/
def winnerConsistent (room : Room) : Prop :=
  room.winner.isSome = true →
    room.history.any (fun g => g.correctCount == 4) = true

/-- Every live room of the state is `winnerConsistent`. -/
def RoomsOK (st : ServerState) : Prop :=
  ∀ p ∈ st.rooms, winnerConsistent p.2

theorem winnerConsistent_of_winner_none {room : Room} (h : room.winner = none) :
    winnerConsistent room := by
  intro hw
  rw [h] at hw
  simp at hw

theorem winnerConsistent_setSecretRoom {room : Room} (h : winnerConsistent room)
    (sid secret : String) (rand : Nat) :
    winnerConsistent (setSecretRoom room sid secret rand) := by
  unfold setSecretRoom
  split
  · exact h
  · split
    · dsimp only
      split
      · exact winnerConsistent_of_winner_none rfl
      · intro hw
        exact h hw
    · exact h

theorem winnerConsistent_guessRoom {room room' : Room} {sid g : String}
    {ts : Nat} (h : guessRoom room sid g ts = some room') :
    winnerConsistent room' := by
  unfold guessRoom at h
  by_cases hw : room.winner.isSome = true
  · rw [if_pos hw] at h
    exact absurd h (by simp)
  · rw [if_neg hw] at h
    split at h
    · exact absurd h (by simp)
    · split at h
      · exact absurd h (by simp)
      · split at h
        · exact absurd h (by simp)
        · split at h
          · exact absurd h (by simp)
          · split at h
            · exact absurd h (by simp)
            · rw [Option.some.injEq] at h
              subst h
              split
              · rename_i hc
                intro _
                simp [List.any_append, hc]
              · intro hww
                exact absurd hww hw

theorem winnerConsistent_resetRoomRoom (room : Room) :
    winnerConsistent (resetRoomRoom room) :=
  winnerConsistent_of_winner_none rfl

theorem roomsOK_mapSet {rs : List (String × Room)} {code : String}
    {room : Room} (h : ∀ p ∈ rs, winnerConsistent p.2)
    (hr : winnerConsistent room) :
    ∀ p ∈ mapSet rs code room, winnerConsistent p.2 := by
  intro p hp
  rcases mem_mapSet hp with hp' | hp'
  · exact h p hp'
  · rw [hp']
    exact hr

theorem dequeueIfQueued_rooms (st : ServerState) (sid : String)
    (sock : SockData) : (dequeueIfQueued st sid sock).rooms = st.rooms := by
  unfold dequeueIfQueued
  split <;> rfl

theorem roomsOK_destroyRoom (st : ServerState) (h : RoomsOK st)
    (code : String) : RoomsOK (destroyRoom st code) := by
  unfold destroyRoom
  split
  · exact h
  · intro p hp
    exact h p (mem_mapDelete hp)

theorem roomsOK_queueJoinBody {st : ServerState} (h : RoomsOK st)
    (sid : String) (modeArg nameArg : Option String) (genCode : String) :
    RoomsOK (queueJoinBody st sid modeArg nameArg genCode) := by
  unfold queueJoinBody
  split
  · exact h
  · dsimp only
    split
    · exact h
    · split
      · exact h
      · split
        · exact h
        · split
          · exact fun p hp => h p hp
          · split
            · exact fun p hp => h p hp
            · split
              · exact fun p hp => h p hp
              · intro p hp
                rcases mem_mapSet hp with hp' | hp'
                · rcases mem_mapSet hp' with hp'' | hp''
                  · exact h p hp''
                  · rw [hp'']
                    exact winnerConsistent_of_winner_none rfl
                · rw [hp']
                  exact winnerConsistent_of_winner_none rfl

theorem roomsOK_disconnecting1 (st : ServerState) (sid : String)
    (sock : SockData) (h : RoomsOK st) :
    RoomsOK (disconnecting1 st sid sock) := by
  unfold disconnecting1
  split
  · exact fun p hp => h p hp
  · exact h

theorem roomsOK_disconnecting2 (st : ServerState) (sid : String)
    (sock : SockData) (h : RoomsOK st) :
    RoomsOK (disconnecting2 st sid sock) := by
  unfold disconnecting2
  split
  · split
    · exact roomsOK_destroyRoom _ h _
    · exact h
  · exact h

theorem roomsOK_step {st : ServerState} (h : RoomsOK st) (e : Event) :
    RoomsOK (step st e) := by
  cases e with
  | connect sid =>
    simp only [step]
    split
    · exact h
    · exact fun p hp => h p hp
  | createRoom sid nameArg modeArg genCode =>
    simp only [step]
    split
    · exact h
    · intro p hp
      rcases mem_mapSet hp with hp' | hp'
      · rcases mem_mapSet hp' with hp'' | hp''
        · rw [dequeueIfQueued_rooms] at hp''
          exact h p hp''
        · rw [hp'']
          exact winnerConsistent_of_winner_none rfl
      · rw [hp']
        exact winnerConsistent_of_winner_none rfl
  | joinRoom sid codeArg nameArg =>
    simp only [step]
    split
    · exact h
    · split
      · intro p hp
        rw [dequeueIfQueued_rooms] at hp
        exact h p hp
      · rename_i hroom
        split
        · intro p hp
          rw [dequeueIfQueued_rooms] at hp
          exact h p hp
        · intro p hp
          rcases mem_mapSet hp with hp' | hp'
          · rw [dequeueIfQueued_rooms] at hp'
            exact h p hp'
          · rw [hp']
            intro hw
            rw [dequeueIfQueued_rooms] at hroom
            exact h _ (mapGet_mem hroom) hw
  | setSecret sid code secret rand =>
    simp only [step]
    split
    · exact h
    · rename_i room hroom
      exact fun p hp => roomsOK_mapSet h
        (winnerConsistent_setSecretRoom (h _ (mapGet_mem hroom)) sid secret rand)
        p hp
  | guess sid code guessStr ts =>
    simp only [step]
    split
    · exact h
    · rename_i room hroom
      split
      · exact h
      · rename_i room' hroom'
        exact fun p hp => roomsOK_mapSet h (winnerConsistent_guessRoom hroom') p hp
  | queueJoin sid modeArg nameArg genCode =>
    simp only [step]
    split
    · exact h
    · rename_i sock hs
      generalize (List.range sock.queueJoinRegs) = l
      clear hs
      induction l generalizing st with
      | nil => exact h
      | cons x xs ih =>
        exact ih (roomsOK_queueJoinBody h sid modeArg nameArg genCode)
  | queueLeave sid =>
    simp only [step]
    split
    · exact h
    · split <;> exact fun p hp => h p hp
  | resetRoom sid code =>
    simp only [step]
    split
    · exact h
    · rename_i room hroom
      split
      · exact roomsOK_destroyRoom _ h _
      · exact fun p hp =>
          roomsOK_mapSet h (winnerConsistent_resetRoomRoom room) p hp
  | leaveRoom sid code =>
    simp only [step]
    split
    · exact h
    · split
      · exact h
      · exact roomsOK_destroyRoom _ h _
  | disconnect sid =>
    simp only [step]
    split
    · exact h
    · exact fun p hp =>
        roomsOK_disconnecting2 _ _ _ (roomsOK_disconnecting1 _ _ _ h) p hp

theorem roomsOK_foldl (es : List Event) (st : ServerState) (h : RoomsOK st) :
    RoomsOK (es.foldl step st) := by
  induction es generalizing st with
  | nil => exact h
  | cons e es ih => exact ih _ (roomsOK_step h e)

/-- C3 amended: one direction of the claimed invariant holds in every
reachable state — whenever `winner` is set, some record in `history`
(appended since the last reset) scored 4/4.  The converse direction fails
(see the counterexample): a re-commit after a win clears `winner` without
clearing `history`. -/
theorem c3_winner_implies_recorded_win (es : List Event) (code : String)
    (room : Room)
    (hr : mapGet (runEvents es).rooms code = some room)
    (hw : room.winner.isSome = true) :
    room.history.any (fun g => g.correctCount == 4) = true :=
  roomsOK_foldl es initialState
    (fun p hp => by simp [initialState] at hp) (code, room) (mapGet_mem hr) hw

/-- The reachable trace used for C3: create, join, commit both secrets, win,
then re-commit a secret after the win. -/
def c3Events : List Event :=
  [.connect "A", .connect "B",
   .createRoom "A" (some "Alice") (some "CLASSIC") "room01",
   .joinRoom "B" (some "room01") (some "Bob"),
   .setSecret "A" "ROOM01" "1234" 0,
   .setSecret "B" "ROOM01" "5678" 0,
   .guess "A" "ROOM01" "5678" 100,
   .setSecret "A" "ROOM01" "1234" 0]

/-- C3 counterexample: after the final re-commit of `c3Events` the room is a
reachable state with `winner = none` even though history still holds a 4/4
record and no reset has occurred — refuting the "if and only if" as an
invariant preserved by set-secret. -/
theorem c3_winner_iff_counterexample :
    (mapGet (runEvents c3Events).rooms "ROOM01").map
      (fun r => (r.winner, r.history.any (fun g => g.correctCount == 4)))
    = some (none, true) := by decide

/-- The room reached by `c3Events.take 7` (just after the winning guess). -/
def c3WinRoom : Room :=
  { code := "ROOM01", mode := "CLASSIC",
    players := [("A", { name := "Alice", secret := some "1234", ready := true }),
                ("B", { name := "Bob", secret := some "5678", ready := true })],
    order := ["A", "B"], turnIndex := 0, winner := some "A",
    history := [{ by_ := "A", guess := "5678", correctCount := 4,
                  feedbackDigits := none, feedbackMask := none, ts := 100 }] }

/-- C3 amended witness: the invariant applied to the trace up to the winning
guess. -/
theorem c3_winner_implies_recorded_win_witness :
    mapGet (runEvents (c3Events.take 7)).rooms "ROOM01" = some c3WinRoom ∧
    c3WinRoom.history.any (fun g => g.correctCount == 4) = true :=
  ⟨by decide, c3_winner_implies_recorded_win (c3Events.take 7) "ROOM01"
    c3WinRoom (by decide) (by decide)⟩

example : countCorrectPositions "1111" "1123" = 2 := by decide
example : feedbackDigits "1111" "1123" = ['1'] := by decide
example : countCorrectPositions "5678" "5678" = 4 := by decide
example : feedbackMask "1521" "1123" = "● ○ ● ○" := by decide
example : nameOr (some "  ") "Player A" = "Player A" := by decide
example : mapGet [("A", 1), ("B", 2)] "B" = some 2 := by decide

end Backend
